import Mathlib

/-!
Verification of the Data-Genie customer synchronization and enrichment
pipeline.

The definitions below are shallow embeddings of the TypeScript source:
the relational customer table is a list of rows, timestamps are integers,
money and confidence values are rationals, and every fallible external
call is modelled by an explicit outcome type.  Each definition is
translated from the corresponding function in the repository
(`server/storage.ts`, `server/syncJob.ts`, `server/shopifyClient.ts`,
the enrichment module and the route handlers); the theorems at the end
settle the specification's claims against these embeddings.
-/

namespace DataGenie

/-- Gender labels, mirroring `genderEnum` in `shared/schema.ts`. -/
inductive Gender where
  | male
  | female
  | unknown
deriving DecidableEq, Repr

/-- Enrichment lifecycle states, mirroring `enrichmentStatusEnum` in
`shared/schema.ts`. -/
inductive EnrichmentStatus where
  | pending
  | complete
  | failed
deriving DecidableEq, Repr

/-- One row of the `customers` table (`shared/schema.ts`).  Nullable
columns are `Option`s; timestamp columns are integers; `real` columns are
rationals.  `id` is the surrogate primary key, `shopifyCustomerId` the
unique external key. -/
structure Customer where
  id : Nat
  shopifyCustomerId : Nat
  email : Option String
  phone : Option String
  firstName : Option String
  lastName : Option String
  city : Option String
  country : Option String
  province : Option String
  postalCode : Option String
  tags : Option String
  createdAtShopify : Option Int
  updatedAtShopify : Option Int
  lastOrderAt : Option Int
  totalSpent : ℚ
  ordersCount : Nat
  genderInferred : Option Gender
  genderConfidence : Option ℚ
  enrichmentStatus : EnrichmentStatus
  createdAt : Int
  updatedAt : Int
deriving DecidableEq, Repr

/-- The payload a caller hands to `upsertCustomer` (the `InsertCustomer`
type of `shared/schema.ts` as the repository's callers actually populate
it).  `lastOrderAt` is absent because no caller in the repository ever
supplies it: a field left `undefined` in the payload is omitted by the
query builder from both the insert values and the conflict-update set,
so the stored `lastOrderAt` is the column default (`null`) on insert and
is preserved on update. -/
structure InsertCustomer where
  shopifyCustomerId : Nat
  email : Option String
  phone : Option String
  firstName : Option String
  lastName : Option String
  city : Option String
  country : Option String
  province : Option String
  postalCode : Option String
  tags : Option String
  createdAtShopify : Option Int
  updatedAtShopify : Option Int
  totalSpent : ℚ
  ordersCount : Nat
  genderInferred : Option Gender
  genderConfidence : Option ℚ
  enrichmentStatus : EnrichmentStatus
deriving DecidableEq, Repr

/-- The predicate the unique index on `customers.shopify_customer_id`
resolves conflicts with. -/
def customerKeyMatches (shopifyId : Nat) (r : Customer) : Bool :=
  r.shopifyCustomerId == shopifyId

/-- The `onConflictDoUpdate` branch of `DatabaseStorage.upsertCustomer`
(`server/storage.ts`, lines 39-57): the `set` clause names email, phone,
first/last name, city, country, province, postal code, tags,
`updatedAtShopify`, `lastOrderAt` (always `undefined`, hence dropped by
the query builder and preserved), `totalSpent`, `ordersCount` and the
local `updatedAt`; it does not name `createdAtShopify`, `genderInferred`,
`genderConfidence` or `enrichmentStatus`, so those keep their stored
values. -/
def applyConflictUpdate (c : InsertCustomer) (now : Int) (r : Customer) : Customer :=
  { r with
    email := c.email
    phone := c.phone
    firstName := c.firstName
    lastName := c.lastName
    city := c.city
    country := c.country
    province := c.province
    postalCode := c.postalCode
    tags := c.tags
    updatedAtShopify := c.updatedAtShopify
    totalSpent := c.totalSpent
    ordersCount := c.ordersCount
    updatedAt := now }

/-- The insert branch of `DatabaseStorage.upsertCustomer`: all payload
fields are written, `lastOrderAt` takes the column default, the local
timestamps default to the current time, and the surrogate id is fresh. -/
def insertedRow (c : InsertCustomer) (now : Int) (freshId : Nat) : Customer :=
  { id := freshId
    shopifyCustomerId := c.shopifyCustomerId
    email := c.email
    phone := c.phone
    firstName := c.firstName
    lastName := c.lastName
    city := c.city
    country := c.country
    province := c.province
    postalCode := c.postalCode
    tags := c.tags
    createdAtShopify := c.createdAtShopify
    updatedAtShopify := c.updatedAtShopify
    lastOrderAt := none
    totalSpent := c.totalSpent
    ordersCount := c.ordersCount
    genderInferred := c.genderInferred
    genderConfidence := c.genderConfidence
    enrichmentStatus := c.enrichmentStatus
    createdAt := now
    updatedAt := now }

/-- `DatabaseStorage.upsertCustomer` (`server/storage.ts`, lines 35-60):
insert keyed on the unique `shopifyCustomerId`, resolving a conflict by
updating the fields of `applyConflictUpdate`.  Returns the new table
contents together with the `returning()` row. -/
def upsertCustomer (db : List Customer) (c : InsertCustomer) (now : Int) :
    List Customer × Customer :=
  match db.find? (customerKeyMatches c.shopifyCustomerId) with
  | some r =>
      let r' := applyConflictUpdate c now r
      (db.map (fun x => if customerKeyMatches c.shopifyCustomerId x then r' else x), r')
  | none =>
      let r := insertedRow c now db.length
      (db ++ [r], r)

/-- The table contents after an upsert. -/
def upsertState (db : List Customer) (c : InsertCustomer) (now : Int) : List Customer :=
  (upsertCustomer db c now).1

/-- The normalized customer shape the source-API client hands to
`onBatch` callbacks (`TransformedCustomer` in `server/shopifyClient.ts`).
The two source timestamps are non-null there. -/
structure TransformedCustomer where
  shopifyCustomerId : Nat
  email : Option String
  phone : Option String
  firstName : Option String
  lastName : Option String
  city : Option String
  country : Option String
  province : Option String
  postalCode : Option String
  tags : Option String
  ordersCount : Nat
  totalSpent : ℚ
  createdAtShopify : Int
  updatedAtShopify : Int
deriving DecidableEq, Repr

/-- The `insertData` payload built for each record inside
`syncCustomers`' `onBatch` (`server/syncJob.ts`, lines 111-129):
source-derived fields come from the fetched record; the enrichment
fields are copied from the previously stored row when one exists and
default to pending/absent otherwise. -/
def syncInsertData (existing : Option Customer) (tc : TransformedCustomer) : InsertCustomer :=
  { shopifyCustomerId := tc.shopifyCustomerId
    email := tc.email
    phone := tc.phone
    firstName := tc.firstName
    lastName := tc.lastName
    city := tc.city
    country := tc.country
    province := tc.province
    postalCode := tc.postalCode
    tags := tc.tags
    createdAtShopify := some tc.createdAtShopify
    updatedAtShopify := some tc.updatedAtShopify
    totalSpent := tc.totalSpent
    ordersCount := tc.ordersCount
    enrichmentStatus := (existing.map Customer.enrichmentStatus).getD EnrichmentStatus.pending
    genderInferred := existing.bind Customer.genderInferred
    genderConfidence := existing.bind Customer.genderConfidence }

/-- The per-record store effect of `syncCustomers`' `onBatch`
(`server/syncJob.ts`, lines 107-147): look up the existing row by
external id, build `syncInsertData`, upsert.  The optional gender-tag
write-back targets the remote platform, not this table, so it has no
effect on the store state. -/
def processSyncRecord (db : List Customer) (tc : TransformedCustomer) (now : Int) :
    List Customer :=
  let existing := db.find? (customerKeyMatches tc.shopifyCustomerId)
  upsertState db (syncInsertData existing tc) now

/-- The customer payload delivered by the platform's customer webhooks,
with the `default_address` sub-object already flattened and numeric
fields already parsed, as the handlers do on receipt. -/
structure WebhookCustomer where
  id : Nat
  email : Option String
  phone : Option String
  firstName : Option String
  lastName : Option String
  city : Option String
  country : Option String
  province : Option String
  zip : Option String
  tags : Option String
  ordersCount : Nat
  totalSpent : ℚ
  createdAt : Int
  updatedAt : Int
deriving DecidableEq, Repr

/-- The upsert payload built by the `POST /webhooks/customers/create`
handler (route registration, `src/unnamed/part_001`, lines 469-505): it
passes `enrichmentStatus: "pending"` and no gender fields, without
reading the existing row first. -/
def webhookCreateInsertData (w : WebhookCustomer) : InsertCustomer :=
  { shopifyCustomerId := w.id
    email := w.email
    phone := w.phone
    firstName := w.firstName
    lastName := w.lastName
    city := w.city
    country := w.country
    province := w.province
    postalCode := w.zip
    tags := w.tags
    createdAtShopify := some w.createdAt
    updatedAtShopify := some w.updatedAt
    totalSpent := w.totalSpent
    ordersCount := w.ordersCount
    enrichmentStatus := EnrichmentStatus.pending
    genderInferred := none
    genderConfidence := none }

/-- Store effect of a validly-signed `customers/create` webhook. -/
def handleWebhookCustomerCreate (db : List Customer) (w : WebhookCustomer) (now : Int) :
    List Customer :=
  upsertState db (webhookCreateInsertData w) now

/-- The upsert payload built by the `POST /webhooks/customers/update`
handler (`src/unnamed/part_001`, lines 507-547): like the sync path, it
reads the existing row first and carries its enrichment fields over. -/
def webhookUpdateInsertData (existing : Option Customer) (w : WebhookCustomer) :
    InsertCustomer :=
  { webhookCreateInsertData w with
    enrichmentStatus := (existing.map Customer.enrichmentStatus).getD EnrichmentStatus.pending
    genderInferred := existing.bind Customer.genderInferred
    genderConfidence := existing.bind Customer.genderConfidence }

/-- Store effect of a validly-signed `customers/update` webhook. -/
def handleWebhookCustomerUpdate (db : List Customer) (w : WebhookCustomer) (now : Int) :
    List Customer :=
  upsertState db (webhookUpdateInsertData (db.find? (customerKeyMatches w.id)) w) now

/-- Result shape of the inference engine (`GenderInferenceResult` in the
enrichment module). -/
structure GenderInferenceResult where
  gender : Gender
  confidence : ℚ
deriving DecidableEq, Repr

/-- The per-customer success write of `enrichPendingCustomers`
(enrichment module, `src/unnamed/part_000`, lines 101-109): set both
gender fields from the inference result and mark the row complete. -/
def enrichCompleteUpdate (db : List Customer) (rowId : Nat) (res : GenderInferenceResult)
    (now : Int) : List Customer :=
  db.map fun r =>
    if r.id == rowId then
      { r with
        genderInferred := some res.gender
        genderConfidence := some res.confidence
        enrichmentStatus := EnrichmentStatus.complete
        updatedAt := now }
    else r

/-- The per-customer failure write of `enrichPendingCustomers`
(`src/unnamed/part_000`, lines 125-131): mark the row failed, leaving the
gender fields alone. -/
def enrichFailedUpdate (db : List Customer) (rowId : Nat) (now : Int) : List Customer :=
  db.map fun r =>
    if r.id == rowId then
      { r with enrichmentStatus := EnrichmentStatus.failed, updatedAt := now }
    else r

/-- `DatabaseStorage.resetAllEnrichments` (`server/storage.ts`, lines
347-359): clear both gender fields and set every row back to pending;
returns the affected count. -/
def resetAllEnrichments (db : List Customer) (now : Int) : List Customer × Nat :=
  (db.map fun r =>
    { r with
      genderInferred := none
      genderConfidence := none
      enrichmentStatus := EnrichmentStatus.pending
      updatedAt := now }, db.length)

/-- A JavaScript number as the confidence computation produces it: a
finite rational, or NaN (in JavaScript NaN is itself of type number, so
the TS annotation `confidence: number` admits it). -/
inductive JsNumber where
  | num (q : ℚ)
  | nan
deriving DecidableEq, Repr

/-- The `confidence` value found in the parsed JSON object, reduced to
the two attributes the expression
`Math.max(0, Math.min(1, result.confidence || 0))` observes: whether
the value is falsy, and what `Number(·)` coercion yields for a truthy
one.  `falsy` covers a missing field, null, 0, the empty string and
false — all replaced by 0 by `|| 0`; `truthyNum q` covers truthy values
that coerce to the number `q` (a non-zero JSON number, and oddities such
as a numeric string or a singleton array); `truthyNaN` covers truthy
values that coerce to NaN (a non-numeric string such as "high", most
objects and arrays), which survive `|| 0` and propagate NaN through
`Math.min` and `Math.max`. -/
inductive ConfidenceValue where
  | falsy
  | truthyNum (q : ℚ)
  | truthyNaN
deriving DecidableEq, Repr

/-- The distinguishable outcomes of the AI completion call made by
`inferGender` (enrichment module, `src/unnamed/part_000`, lines 43-75),
as seen by the response-handling code: a transport/API error (caught by
the surrounding `try`), a response with empty content, content that
`JSON.parse` rejects (the raised error is caught by the same `try`), or
a parsed JSON object carrying an arbitrary `gender` value (`none`
stands for a missing or non-string value, which the `includes` check
rejects like any unaccepted string) and a `confidence` value. -/
inductive InferResponse where
  | apiError
  | noContent
  | unparseable
  | parsed (gender : Option String) (confidence : ConfidenceValue)
deriving DecidableEq, Repr

/-- `Math.min(a, x)`: NaN-propagating minimum. -/
def jsMin (a : ℚ) : JsNumber → JsNumber
  | JsNumber.num q => JsNumber.num (min a q)
  | JsNumber.nan => JsNumber.nan

/-- `Math.max(a, x)`: NaN-propagating maximum. -/
def jsMax (a : ℚ) : JsNumber → JsNumber
  | JsNumber.num q => JsNumber.num (max a q)
  | JsNumber.nan => JsNumber.nan

/-- `result.confidence || 0`: falsy values become 0, truthy values reach
the clamp as their numeric coercion. -/
def confidenceOrZero : ConfidenceValue → JsNumber
  | ConfidenceValue.falsy => JsNumber.num 0
  | ConfidenceValue.truthyNum q => JsNumber.num q
  | ConfidenceValue.truthyNaN => JsNumber.nan

/-- The confidence computation of `inferGender`:
`Math.max(0, Math.min(1, result.confidence || 0))`. -/
def clampConfidence (c : ConfidenceValue) : JsNumber :=
  jsMax 0 (jsMin 1 (confidenceOrZero c))

/-- What `inferGender` returns: the TS interface types `confidence` as
`number`, which in JavaScript includes NaN. -/
structure InferGenderReturn where
  gender : Gender
  confidence : JsNumber
deriving DecidableEq, Repr

/-- Response handling of `inferGender`: errors, missing content and
unparseable content all yield `{unknown, 0}`; for a parsed object the
`gender` is kept only when it is one of the three accepted strings, and
the confidence is the `|| 0`-then-clamp value computed independently of
the gender check. -/
def inferGender : InferResponse → InferGenderReturn
  | InferResponse.apiError => ⟨Gender.unknown, JsNumber.num 0⟩
  | InferResponse.noContent => ⟨Gender.unknown, JsNumber.num 0⟩
  | InferResponse.unparseable => ⟨Gender.unknown, JsNumber.num 0⟩
  | InferResponse.parsed g c =>
      let gender :=
        if g = some "male" then Gender.male
        else if g = some "female" then Gender.female
        else if g = some "unknown" then Gender.unknown
        else Gender.unknown
      ⟨gender, clampConfidence c⟩

/-- An HTTP response from the source platform, reduced to the fields the
client inspects: the status code and the `Retry-After` header (in
seconds). -/
structure ShopifyResponse where
  status : Nat
  retryAfter : Option Nat
deriving DecidableEq, Repr

/-- The `response.ok` predicate of the fetch API: status in [200, 300). -/
def responseOk (status : Nat) : Bool :=
  200 ≤ status && status < 300

/-- The wait `shopifyFetch` performs on a 429: `Retry-After` seconds in
milliseconds, defaulting to 5000 ms when the header is absent. -/
def retryWaitMs (r : ShopifyResponse) : Nat :=
  (r.retryAfter.map (fun s => s * 1000)).getD 5000

/-- `shopifyFetch` (`server/shopifyClient.ts`, lines 48-89) applied to
the successive responses the server gives to the identical request: each
429 is consumed after recording its wait, the first non-429 response is
final — `ok` when 2xx, otherwise an error carrying the status.  The
source recursion has no base case of its own (it retries forever); the
`[]` case models a server that never answers a non-429 and carries the
impossible status 0. -/
def shopifyFetch : List ShopifyResponse → List Nat × Except Nat ShopifyResponse
  | [] => ([], Except.error 0)
  | r :: rest =>
      if r.status = 429 then
        let p := shopifyFetch rest
        (retryWaitMs r :: p.1, p.2)
      else if responseOk r.status then ([], Except.ok r)
      else ([], Except.error r.status)

/-- One page-response during the bulk iteration of `fetchAllCustomers`
(`server/shopifyClient.ts`, lines 161-221): the HTTP status, the records
in the body, and whether the `Link` header advertises a next page. -/
structure FetchPage where
  status : Nat
  customers : List TransformedCustomer
  hasNextLink : Bool
deriving DecidableEq, Repr

/-- `fetchAllCustomers`' iteration over the successive page responses:
each page is requested with a raw `fetch` (not `shopifyFetch`), any
non-ok status — 429 included — raises an error carrying the status,
`onBatch` observes each non-empty page, and the loop continues exactly
when the page advertises a next cursor and held exactly 250 records.
Returns the `onBatch` batches in order together with the returned
total. -/
def fetchAllCustomers : List FetchPage → Except Nat (List (List TransformedCustomer) × Nat)
  | [] => Except.ok ([], 0)
  | p :: rest =>
      if responseOk p.status then
        let batches := if p.customers.length > 0 then [p.customers] else []
        if p.hasNextLink && p.customers.length == 250 then
          match fetchAllCustomers rest with
          | Except.ok (bs, n) => Except.ok (batches ++ bs, p.customers.length + n)
          | Except.error e => Except.error e
        else Except.ok (batches, p.customers.length)
      else Except.error p.status

/-- A well-formed finite paginated source: every page before the last
holds exactly the requested 250 records and advertises a next cursor,
the last page advertises none, and every request succeeds. -/
def WellFormedSource (pages : List FetchPage) : Prop :=
  (∀ p ∈ pages, responseOk p.status = true) ∧
  (∀ p ∈ pages.dropLast, p.customers.length = 250 ∧ p.hasNextLink = true) ∧
  (∀ p ∈ pages.getLast?.toList, p.hasNextLink = false)

instance (pages : List FetchPage) : Decidable (WellFormedSource pages) := by
  unfold WellFormedSource
  infer_instance

/-- The incremental-window resolution of `syncCustomers`
(`src/unnamed/part_001`, lines 595-615): the caller-supplied start date,
else the configured fixed start date, else the most recent stored
customer's source-updated timestamp, else the latest sync log's
completion time, else none; any boundary found has 5 minutes subtracted.
Times are in minutes.  The third input stands for the store query
`getLatestCustomerUpdatedAt`, the fourth for
`getLatestSyncLog()?.completedAt`. -/
def resolveUpdatedAtMin (startDate configuredStart latestCustomerUpdatedAt
    latestLogCompletedAt : Option Int) : Option Int :=
  let baseDate :=
    match startDate with
    | some d => some d
    | none => configuredStart
  let found :=
    match baseDate with
    | some d => some d
    | none =>
        match latestCustomerUpdatedAt with
        | some d => some d
        | none => latestLogCompletedAt
  match found with
  | some d => some (d - 5)
  | none => none

/-- Sync Log run states (`status` column of `sync_logs`). -/
inductive RunStatus where
  | running
  | completed
  | failed
deriving DecidableEq, Repr

/-- One row of the `sync_logs` table (`shared/schema.ts`). -/
structure SyncLogRow where
  id : Nat
  syncType : String
  status : RunStatus
  customersProcessed : Nat
  customersCreated : Nat
  customersUpdated : Nat
  errorMessage : Option String
  startedAt : Int
  completedAt : Option Int
deriving DecidableEq, Repr

/-- Result triple of `syncCustomers`. -/
structure SyncResult where
  processed : Nat
  created : Nat
  updated : Nat
deriving DecidableEq, Repr

/-- Process state relevant to the single-flight guarantee of
`syncCustomers` (`server/syncJob.ts`): the module-level `isSyncing`
flag, the `sync_logs` table, and the in-flight run's `syncLog` local —
`some logId` exactly while a run is past the guard.  Being
single-threaded, at most one invocation can be past the guard at a time,
so one optional local suffices. -/
structure OrchestratorState where
  isSyncing : Bool
  logs : List SyncLogRow
  currentRun : Option Nat
deriving DecidableEq, Repr

/-- The state before any sync has been triggered. -/
def initialOrchestratorState : OrchestratorState :=
  { isSyncing := false, logs := [], currentRun := none }

/-- The guard and entry of `syncCustomers` (`server/syncJob.ts`, lines
67-82): when `isSyncing` is set the call returns `{0,0,0}` immediately
and touches nothing; otherwise it sets the flag and creates a Sync Log
row in `running` state.  `some result` is the early-return value; `none`
means the run is now in flight. -/
def triggerSync (s : OrchestratorState) (incremental : Bool) (now : Int) :
    OrchestratorState × Option SyncResult :=
  if s.isSyncing then (s, some ⟨0, 0, 0⟩)
  else
    let logId := s.logs.length
    ({ isSyncing := true
       logs := s.logs ++
         [{ id := logId
            syncType := if incremental then "incremental" else "full"
            status := RunStatus.running
            customersProcessed := 0
            customersCreated := 0
            customersUpdated := 0
            errorMessage := none
            startedAt := now
            completedAt := none }]
       currentRun := some logId }, none)

/-- How the in-flight run ends: the normal completion path or the catch
path with an error message (`server/syncJob.ts`, lines 151-188). -/
inductive SyncOutcome where
  | ok (processed created updated : Nat)
  | err (msg : String)
deriving DecidableEq, Repr

/-- Terminal update of a sync log row per outcome. -/
def finishLogRow (o : SyncOutcome) (now : Int) (r : SyncLogRow) : SyncLogRow :=
  match o with
  | SyncOutcome.ok p c u =>
      { r with
        status := RunStatus.completed
        customersProcessed := p
        customersCreated := c
        customersUpdated := u
        completedAt := some now }
  | SyncOutcome.err m =>
      { r with
        status := RunStatus.failed
        errorMessage := some m
        completedAt := some now }

/-- Exit of `syncCustomers`: the in-flight run updates its own log row to
a terminal state (completion path or catch path) and the `finally` block
clears `isSyncing`.  A finish event with no run in flight cannot arise
and leaves the state unchanged. -/
def finishSync (s : OrchestratorState) (o : SyncOutcome) (now : Int) : OrchestratorState :=
  match s.currentRun with
  | none => s
  | some logId =>
      { isSyncing := false
        logs := s.logs.map fun r => if r.id == logId then finishLogRow o now r else r
        currentRun := none }

/-- The events a process can interleave: sync triggers (from the cron
schedule or the manual endpoint) and the eventual exit of the in-flight
run. -/
inductive SyncEvent where
  | trigger (incremental : Bool) (now : Int)
  | finish (o : SyncOutcome) (now : Int)

/-- One orchestrator step. -/
def syncStep (s : OrchestratorState) : SyncEvent → OrchestratorState
  | SyncEvent.trigger incremental now => (triggerSync s incremental now).1
  | SyncEvent.finish o now => finishSync s o now

/-- State after a sequence of interleaved sync events from the start of
the process. -/
def runSyncEvents (events : List SyncEvent) : OrchestratorState :=
  events.foldl syncStep initialOrchestratorState

/-- Number of Sync Log rows currently in `running` state. -/
def runningCount (s : OrchestratorState) : Nat :=
  (s.logs.filter fun r => r.status == RunStatus.running).length

/-- Inductive invariant tying the flag, the in-flight run and the table:
the flag is set exactly while a run is in flight, a running log row can
only be the in-flight run's own row, and log-row ids are bounded by the
table length and pairwise distinct (so fresh ids never collide). -/
def OrchestratorInv (s : OrchestratorState) : Prop :=
  s.isSyncing = s.currentRun.isSome ∧
  (∀ r ∈ s.logs, r.status = RunStatus.running → s.currentRun = some r.id) ∧
  (∀ r ∈ s.logs, r.id < s.logs.length) ∧
  (s.logs.map SyncLogRow.id).Nodup

/-- The operations that write customer rows, drawn from every writer in
the repository: the per-record sync upsert, the two webhook handlers,
the enrichment success and failure writes, and the administrative
enrichment reset. -/
inductive StoreOp where
  | syncRecord (tc : TransformedCustomer)
  | webhookCreate (w : WebhookCustomer)
  | webhookUpdate (w : WebhookCustomer)
  | enrichComplete (rowId : Nat) (res : GenderInferenceResult)
  | enrichFailed (rowId : Nat)
  | resetAll
deriving Repr

/-- Effect of one customer-writing operation on the table. -/
def stepStore (db : List Customer) (now : Int) : StoreOp → List Customer
  | StoreOp.syncRecord tc => processSyncRecord db tc now
  | StoreOp.webhookCreate w => handleWebhookCustomerCreate db w now
  | StoreOp.webhookUpdate w => handleWebhookCustomerUpdate db w now
  | StoreOp.enrichComplete rowId res => enrichCompleteUpdate db rowId res now
  | StoreOp.enrichFailed rowId => enrichFailedUpdate db rowId now
  | StoreOp.resetAll => (resetAllEnrichments db now).1

/-- Table state after a sequence of writes, each with its own clock
value. -/
def runStoreOps (db : List Customer) (ops : List (Int × StoreOp)) : List Customer :=
  ops.foldl (fun d p => stepStore d p.1 p.2) db

/-- The enrichment data invariant: a row marked complete carries both a
gender and a confidence. -/
def EnrichmentInvariant (db : List Customer) : Prop :=
  ∀ r ∈ db, r.enrichmentStatus = EnrichmentStatus.complete →
    r.genderInferred ≠ none ∧ r.genderConfidence ≠ none

instance (db : List Customer) : Decidable (EnrichmentInvariant db) := by
  unfold EnrichmentInvariant
  infer_instance

/-! ## Helper lemmas about the upsert -/

/-- When the key already exists, the upsert leaves the enrichment fields
of every row carrying that key at the previously stored values, whatever
the caller supplied: the conflict-update set never names them. -/
theorem upsert_existing_preserves_enrichment (db : List Customer) (c : InsertCustomer)
    (now : Int) (r : Customer)
    (hfind : db.find? (customerKeyMatches c.shopifyCustomerId) = some r) :
    ∀ row ∈ upsertState db c now,
      customerKeyMatches c.shopifyCustomerId row = true →
      row.genderInferred = r.genderInferred ∧
      row.genderConfidence = r.genderConfidence ∧
      row.enrichmentStatus = r.enrichmentStatus := by
  intro row hmem hkey
  unfold upsertState upsertCustomer at hmem
  rw [hfind] at hmem
  simp only [List.mem_map] at hmem
  obtain ⟨x, hx, hrow⟩ := hmem
  by_cases h : customerKeyMatches c.shopifyCustomerId x
  · rw [if_pos h] at hrow
    subst hrow
    exact ⟨rfl, rfl, rfl⟩
  · rw [if_neg h] at hrow
    subst hrow
    exact absurd hkey h

/-- C2: for every stored customer whose enrichment status is complete,
re-running the sync upsert for the same external id (with no new
inference input) leaves `genderInferred` and `genderConfidence` at their
prior values and leaves the status complete rather than reverting it to
pending. -/
theorem resync_preserves_complete_enrichment (db : List Customer)
    (tc : TransformedCustomer) (now : Int) (r : Customer)
    (hfind : db.find? (customerKeyMatches tc.shopifyCustomerId) = some r)
    (hst : r.enrichmentStatus = EnrichmentStatus.complete) :
    ∀ row ∈ processSyncRecord db tc now,
      customerKeyMatches tc.shopifyCustomerId row = true →
      row.genderInferred = r.genderInferred ∧
      row.genderConfidence = r.genderConfidence ∧
      row.enrichmentStatus = EnrichmentStatus.complete := by
  intro row hmem hkey
  unfold processSyncRecord at hmem
  rw [hfind] at hmem
  have h := upsert_existing_preserves_enrichment db (syncInsertData (some r) tc) now r
    hfind row hmem hkey
  exact ⟨h.1, h.2.1, hst ▸ h.2.2⟩

/-- C10: for every customer already present, a validly-signed
`customers/create` webhook for the same external id — whose handler
passes status pending and no gender fields without reading the existing
row — leaves the stored `genderInferred`, `genderConfidence` and
`enrichmentStatus` unchanged, because the conflict-update path never
sets enrichment fields. -/
theorem webhookCreate_preserves_enrichment (db : List Customer) (w : WebhookCustomer)
    (now : Int) (r : Customer)
    (hfind : db.find? (customerKeyMatches w.id) = some r) :
    ∀ row ∈ handleWebhookCustomerCreate db w now,
      customerKeyMatches w.id row = true →
      row.genderInferred = r.genderInferred ∧
      row.genderConfidence = r.genderConfidence ∧
      row.enrichmentStatus = r.enrichmentStatus := by
  intro row hmem hkey
  unfold handleWebhookCustomerCreate at hmem
  exact upsert_existing_preserves_enrichment db (webhookCreateInsertData w) now r
    hfind row hmem hkey

/-! ## Concrete sample data for witnesses and counterexamples -/

/-- A stored row with completed enrichment. -/
def sampleCompleteRow : Customer :=
  { id := 0
    shopifyCustomerId := 11
    email := some "jane@example.com"
    phone := none
    firstName := some "Jane"
    lastName := some "Doe"
    city := some "Pune"
    country := some "India"
    province := some "MH"
    postalCode := none
    tags := some "vip"
    createdAtShopify := some 100
    updatedAtShopify := some 200
    lastOrderAt := none
    totalSpent := 10
    ordersCount := 3
    genderInferred := some Gender.female
    genderConfidence := some (mkRat 4 5)
    enrichmentStatus := EnrichmentStatus.complete
    createdAt := 0
    updatedAt := 0 }

/-- A fetched source record carrying the same external id as
`sampleCompleteRow`. -/
def sampleSyncRecord : TransformedCustomer :=
  { shopifyCustomerId := 11
    email := some "jane@example.com"
    phone := none
    firstName := some "Jane"
    lastName := some "Doe"
    city := some "Pune"
    country := some "India"
    province := some "MH"
    postalCode := none
    tags := some "vip"
    ordersCount := 4
    totalSpent := 12
    createdAtShopify := 100
    updatedAtShopify := 300 }

/-- A webhook payload carrying the same external id as
`sampleCompleteRow`. -/
def sampleWebhookCustomer : WebhookCustomer :=
  { id := 11
    email := some "jane@example.com"
    phone := none
    firstName := some "Jane"
    lastName := some "Doe"
    city := some "Pune"
    country := some "India"
    province := some "MH"
    zip := none
    tags := some "vip"
    ordersCount := 5
    totalSpent := 15
    createdAt := 100
    updatedAt := 400 }

/-- An upsert payload that explicitly supplies cleared enrichment fields
and a changed `createdAtShopify` for the same external id. -/
def enrichmentClearingInsert : InsertCustomer :=
  { shopifyCustomerId := 11
    email := some "jane@example.com"
    phone := none
    firstName := some "Jane"
    lastName := some "Doe"
    city := some "Pune"
    country := some "India"
    province := some "MH"
    postalCode := none
    tags := some "vip"
    createdAtShopify := some 999
    updatedAtShopify := some 300
    totalSpent := 12
    ordersCount := 4
    genderInferred := none
    genderConfidence := none
    enrichmentStatus := EnrichmentStatus.pending }

/-- Witness for C2 at a concrete store and record. -/
theorem resync_preserves_complete_enrichment_witness :
    [sampleCompleteRow].find? (customerKeyMatches sampleSyncRecord.shopifyCustomerId) =
      some sampleCompleteRow ∧
    sampleCompleteRow.enrichmentStatus = EnrichmentStatus.complete ∧
    ∀ row ∈ processSyncRecord [sampleCompleteRow] sampleSyncRecord 500,
      customerKeyMatches sampleSyncRecord.shopifyCustomerId row = true →
      row.genderInferred = sampleCompleteRow.genderInferred ∧
      row.genderConfidence = sampleCompleteRow.genderConfidence ∧
      row.enrichmentStatus = EnrichmentStatus.complete :=
  ⟨by decide, by decide,
    resync_preserves_complete_enrichment [sampleCompleteRow] sampleSyncRecord 500
      sampleCompleteRow (by decide) (by decide)⟩

/-- Witness for C10 at a concrete store and webhook payload. -/
theorem webhookCreate_preserves_enrichment_witness :
    [sampleCompleteRow].find? (customerKeyMatches sampleWebhookCustomer.id) =
      some sampleCompleteRow ∧
    ∀ row ∈ handleWebhookCustomerCreate [sampleCompleteRow] sampleWebhookCustomer 500,
      customerKeyMatches sampleWebhookCustomer.id row = true →
      row.genderInferred = sampleCompleteRow.genderInferred ∧
      row.genderConfidence = sampleCompleteRow.genderConfidence ∧
      row.enrichmentStatus = sampleCompleteRow.enrichmentStatus :=
  ⟨by decide,
    webhookCreate_preserves_enrichment [sampleCompleteRow] sampleWebhookCustomer 500
      sampleCompleteRow (by decide)⟩

/-- C3 counterexample: upserting over an existing row with
explicitly-supplied cleared enrichment fields and a changed
`createdAtShopify` returns a row whose enrichment fields and
`createdAtShopify` keep their previously stored values — they do not
equal the values the caller supplied in that call. -/
theorem upsert_ignores_supplied_enrichment_on_update :
    (upsertCustomer [sampleCompleteRow] enrichmentClearingInsert 500).2.genderInferred =
      some Gender.female ∧
    enrichmentClearingInsert.genderInferred = none ∧
    (upsertCustomer [sampleCompleteRow] enrichmentClearingInsert 500).2.enrichmentStatus =
      EnrichmentStatus.complete ∧
    enrichmentClearingInsert.enrichmentStatus = EnrichmentStatus.pending ∧
    (upsertCustomer [sampleCompleteRow] enrichmentClearingInsert 500).2.createdAtShopify =
      some 100 ∧
    enrichmentClearingInsert.createdAtShopify = some 999 := by
  decide

/-- C3 (amended): when `upsertCustomer` is called with an external id
that already exists, the conflict update sets email, phone, first/last
name, city, country, province, postal code, tags, `updatedAtShopify`,
`totalSpent` and `ordersCount` to the supplied values unconditionally,
while `createdAtShopify` and the enrichment fields (`genderInferred`,
`genderConfidence`, `enrichmentStatus`) of the resulting row keep the
previously stored values regardless of what the caller supplied; every
stored row carrying that key equals the returned row. -/
theorem upsertCustomer_update_field_semantics (db : List Customer) (c : InsertCustomer)
    (now : Int) (r : Customer)
    (hfind : db.find? (customerKeyMatches c.shopifyCustomerId) = some r) :
    ((upsertCustomer db c now).2.email = c.email ∧
     (upsertCustomer db c now).2.phone = c.phone ∧
     (upsertCustomer db c now).2.firstName = c.firstName ∧
     (upsertCustomer db c now).2.lastName = c.lastName ∧
     (upsertCustomer db c now).2.city = c.city ∧
     (upsertCustomer db c now).2.country = c.country ∧
     (upsertCustomer db c now).2.province = c.province ∧
     (upsertCustomer db c now).2.postalCode = c.postalCode ∧
     (upsertCustomer db c now).2.tags = c.tags ∧
     (upsertCustomer db c now).2.updatedAtShopify = c.updatedAtShopify ∧
     (upsertCustomer db c now).2.totalSpent = c.totalSpent ∧
     (upsertCustomer db c now).2.ordersCount = c.ordersCount) ∧
    ((upsertCustomer db c now).2.createdAtShopify = r.createdAtShopify ∧
     (upsertCustomer db c now).2.genderInferred = r.genderInferred ∧
     (upsertCustomer db c now).2.genderConfidence = r.genderConfidence ∧
     (upsertCustomer db c now).2.enrichmentStatus = r.enrichmentStatus) ∧
    (∀ row ∈ upsertState db c now,
      customerKeyMatches c.shopifyCustomerId row = true →
      row = (upsertCustomer db c now).2) := by
  refine ⟨?_, ?_, ?_⟩
  · unfold upsertCustomer
    rw [hfind]
    exact ⟨rfl, rfl, rfl, rfl, rfl, rfl, rfl, rfl, rfl, rfl, rfl, rfl⟩
  · unfold upsertCustomer
    rw [hfind]
    exact ⟨rfl, rfl, rfl, rfl⟩
  · intro row hmem hkey
    unfold upsertState upsertCustomer at hmem
    unfold upsertCustomer
    rw [hfind] at hmem ⊢
    simp only [List.mem_map] at hmem
    obtain ⟨x, hx, hrow⟩ := hmem
    by_cases h : customerKeyMatches c.shopifyCustomerId x
    · rw [if_pos h] at hrow
      exact hrow.symm
    · rw [if_neg h] at hrow
      subst hrow
      exact absurd hkey h

/-- Witness for the amended C3 at a concrete store and payload. -/
theorem upsertCustomer_update_field_semantics_witness :
    [sampleCompleteRow].find?
      (customerKeyMatches enrichmentClearingInsert.shopifyCustomerId) =
      some sampleCompleteRow ∧
    (upsertCustomer [sampleCompleteRow] enrichmentClearingInsert 500).2.tags =
      enrichmentClearingInsert.tags ∧
    (upsertCustomer [sampleCompleteRow] enrichmentClearingInsert 500).2.genderConfidence =
      sampleCompleteRow.genderConfidence :=
  ⟨by decide,
    ((upsertCustomer_update_field_semantics [sampleCompleteRow] enrichmentClearingInsert
      500 sampleCompleteRow (by decide)).1.2.2.2.2.2.2.2.2.1),
    ((upsertCustomer_update_field_semantics [sampleCompleteRow] enrichmentClearingInsert
      500 sampleCompleteRow (by decide)).2.1.2.2.1)⟩

/-! ## Inference validation (C5) -/

/-- C5 counterexample: the claim fails twice.  A response whose gender is
not one of the three accepted values but whose confidence is a valid
number is not forced to `{unknown, 0}` — the gender is forced to unknown
but the clamped confidence survives.  And a response whose confidence is
a truthy non-numeric JSON value (such as the string "high") survives
`|| 0` and propagates NaN through the clamp, so the returned confidence
is NaN, outside `[0,1]`. -/
theorem inferGender_validation_counterexample :
    inferGender (InferResponse.parsed (some "banana")
        (ConfidenceValue.truthyNum (mkRat 9 10))) =
      ⟨Gender.unknown, JsNumber.num (mkRat 9 10)⟩ ∧
    mkRat 9 10 ≠ 0 ∧
    inferGender (InferResponse.parsed (some "male") ConfidenceValue.truthyNaN) =
      ⟨Gender.male, JsNumber.nan⟩ ∧
    JsNumber.nan ≠ JsNumber.num 0 := by
  decide

/-- C5 (amended): the gender of every inference result is one of male,
female, unknown; transport/API errors, missing content and unparseable
content yield `{unknown, 0}`; a gender outside the three accepted values
is forced to unknown while the confidence is still the independently
computed response value (not forced to 0); the confidence is always
`max(0, min(1, confidence || 0))`, which is a rational in `[0,1]` —
with 1.7 clamping to 1 — in every case except a truthy non-numeric
response confidence, exactly when the returned confidence is NaN. -/
theorem inferGender_validation (resp : InferResponse) :
    (inferGender InferResponse.apiError = ⟨Gender.unknown, JsNumber.num 0⟩ ∧
     inferGender InferResponse.noContent = ⟨Gender.unknown, JsNumber.num 0⟩ ∧
     inferGender InferResponse.unparseable = ⟨Gender.unknown, JsNumber.num 0⟩) ∧
    (∀ g c, g ≠ some "male" → g ≠ some "female" → g ≠ some "unknown" →
      (inferGender (InferResponse.parsed g c)).gender = Gender.unknown) ∧
    (∀ g c, (inferGender (InferResponse.parsed g c)).confidence = clampConfidence c) ∧
    (∀ q : ℚ, (inferGender resp).confidence = JsNumber.num q → 0 ≤ q ∧ q ≤ 1) ∧
    (∀ g c, (inferGender (InferResponse.parsed g c)).confidence = JsNumber.nan ↔
      c = ConfidenceValue.truthyNaN) ∧
    clampConfidence (ConfidenceValue.truthyNum (mkRat 17 10)) = JsNumber.num 1 := by
  refine ⟨⟨rfl, rfl, rfl⟩, ?_, fun g c => rfl, ?_, ?_, by decide⟩
  · intro g c h1 h2 h3
    show (if g = some "male" then Gender.male
      else if g = some "female" then Gender.female
      else if g = some "unknown" then Gender.unknown
      else Gender.unknown) = Gender.unknown
    rw [if_neg h1, if_neg h2, if_neg h3]
  · intro q hq
    cases resp with
    | apiError =>
        injection hq with hq
        subst hq
        exact ⟨le_refl 0, by decide⟩
    | noContent =>
        injection hq with hq
        subst hq
        exact ⟨le_refl 0, by decide⟩
    | unparseable =>
        injection hq with hq
        subst hq
        exact ⟨le_refl 0, by decide⟩
    | parsed g c =>
        cases c with
        | falsy =>
            injection hq with hq
            subst hq
            exact ⟨by decide, by decide⟩
        | truthyNum q' =>
            injection hq with hq
            subst hq
            exact ⟨le_max_left 0 _, max_le (by decide) (min_le_left 1 _)⟩
        | truthyNaN => exact JsNumber.noConfusion hq
  · intro g c
    cases c with
    | falsy =>
        exact iff_of_false (fun h => JsNumber.noConfusion h)
          (fun h => ConfidenceValue.noConfusion h)
    | truthyNum q' =>
        exact iff_of_false (fun h => JsNumber.noConfusion h)
          (fun h => ConfidenceValue.noConfusion h)
    | truthyNaN => exact iff_of_true rfl rfl

/-- Witness for the amended C5 at concrete provider responses: an
unaccepted gender string is forced to unknown, 1.7 clamps to 1, and the
numeric-result bounds hold at the clamped value. -/
theorem inferGender_validation_witness :
    (inferGender (InferResponse.parsed (some "banana")
      (ConfidenceValue.truthyNum (mkRat 9 10)))).gender = Gender.unknown ∧
    (inferGender (InferResponse.parsed (some "male")
      (ConfidenceValue.truthyNum (mkRat 17 10)))).confidence = JsNumber.num 1 ∧
    (0 ≤ (1 : ℚ) ∧ (1 : ℚ) ≤ 1) :=
  ⟨(inferGender_validation (InferResponse.parsed (some "banana")
      (ConfidenceValue.truthyNum (mkRat 9 10)))).2.1
      (some "banana") (ConfidenceValue.truthyNum (mkRat 9 10))
      (by decide) (by decide) (by decide),
    ((inferGender_validation (InferResponse.parsed (some "male")
      (ConfidenceValue.truthyNum (mkRat 17 10)))).2.2.1
      (some "male") (ConfidenceValue.truthyNum (mkRat 17 10))).trans
      (inferGender_validation (InferResponse.parsed (some "male")
        (ConfidenceValue.truthyNum (mkRat 17 10)))).2.2.2.2.2,
    (inferGender_validation (InferResponse.parsed (some "male")
      (ConfidenceValue.truthyNum (mkRat 17 10)))).2.2.2.1 1
      (((inferGender_validation (InferResponse.parsed (some "male")
        (ConfidenceValue.truthyNum (mkRat 17 10)))).2.2.1
        (some "male") (ConfidenceValue.truthyNum (mkRat 17 10))).trans
        (inferGender_validation (InferResponse.parsed (some "male")
          (ConfidenceValue.truthyNum (mkRat 17 10)))).2.2.2.2.2)⟩

/-! ## Incremental window resolution (C6) -/

/-- C6: in incremental mode the "updated since" boundary is resolved in
priority order — caller-supplied start date, else configured fixed start
date, else the most recent stored customer's source-updated timestamp,
else the latest sync log's completion time, else no lower bound — and
whenever a boundary is found, exactly 5 minutes are subtracted before it
is used. -/
theorem resolveUpdatedAtMin_priority (sd cf lc ll : Option Int) :
    (∀ d, sd = some d → resolveUpdatedAtMin sd cf lc ll = some (d - 5)) ∧
    (sd = none → ∀ d, cf = some d → resolveUpdatedAtMin sd cf lc ll = some (d - 5)) ∧
    (sd = none → cf = none → ∀ d, lc = some d →
      resolveUpdatedAtMin sd cf lc ll = some (d - 5)) ∧
    (sd = none → cf = none → lc = none → ∀ d, ll = some d →
      resolveUpdatedAtMin sd cf lc ll = some (d - 5)) ∧
    (sd = none → cf = none → lc = none → ll = none →
      resolveUpdatedAtMin sd cf lc ll = none) := by
  refine ⟨?_, ?_, ?_, ?_, ?_⟩
  · intro d h
    subst h
    rfl
  · intro h d h2
    subst h
    subst h2
    rfl
  · intro h h2 d h3
    subst h
    subst h2
    subst h3
    rfl
  · intro h h2 h3 d h4
    subst h
    subst h2
    subst h3
    subst h4
    rfl
  · intro h h2 h3 h4
    subst h
    subst h2
    subst h3
    subst h4
    rfl

/-- Witness for C6 at concrete boundary inputs: a caller-supplied start
date wins over everything, and with neither start date configured the
most recent customer timestamp wins over the sync-log completion time. -/
theorem resolveUpdatedAtMin_priority_witness :
    resolveUpdatedAtMin (some 50) (some 80) (some 100) (some 200) = some (50 - 5) ∧
    resolveUpdatedAtMin none none (some 100) (some 200) = some (100 - 5) :=
  ⟨(resolveUpdatedAtMin_priority (some 50) (some 80) (some 100) (some 200)).1 50 rfl,
    (resolveUpdatedAtMin_priority none none (some 100) (some 200)).2.2.1 rfl rfl 100 rfl⟩

/-! ## Rate-limit handling (C7) -/

/-- C7 counterexample: a 429 received during the bulk iteration of
`fetchAllCustomers` is propagated to the caller as an error — the bulk
loop issues raw requests and treats 429 like any other non-ok status,
with no retry. -/
theorem fetchAllCustomers_propagates_429 :
    fetchAllCustomers [{ status := 429, customers := [], hasNextLink := false }] =
      Except.error 429 := by
  rfl

/-- C7 (amended): a request sent through `shopifyFetch` that receives a
429 is retried identically after the server-provided Retry-After
duration in milliseconds (or a 5000 ms default when the header is
absent), and `shopifyFetch` never surfaces a 429 as an error; the raw
requests of `fetchAllCustomers`' bulk iteration, however, propagate any
non-ok status — 429 included — as an error without retrying. -/
theorem shopifyFetch_retries_429 :
    (∀ (pre : List ShopifyResponse) (final : ShopifyResponse),
      (∀ r ∈ pre, r.status = 429) → responseOk final.status = true →
      shopifyFetch (pre ++ [final]) = (pre.map retryWaitMs, Except.ok final)) ∧
    (∀ (rs : List ShopifyResponse) (e : Nat),
      (shopifyFetch rs).2 = Except.error e → e ≠ 429) ∧
    (∀ r : ShopifyResponse, r.retryAfter = none → retryWaitMs r = 5000) ∧
    (∀ (r : ShopifyResponse) (s : Nat), r.retryAfter = some s →
      retryWaitMs r = s * 1000) ∧
    (∀ (p : FetchPage) (rest : List FetchPage), responseOk p.status = false →
      fetchAllCustomers (p :: rest) = Except.error p.status) := by
  refine ⟨?_, ?_, ?_, ?_, ?_⟩
  · intro pre final hpre hok
    induction pre with
    | nil =>
        have h429 : final.status ≠ 429 := by
          intro h
          rw [h] at hok
          exact absurd hok (by decide)
        show shopifyFetch [final] = ([], Except.ok final)
        unfold shopifyFetch
        rw [if_neg h429, if_pos hok]
    | cons r pre ih =>
        have hr : r.status = 429 := hpre r (List.mem_cons_self r pre)
        have hrest : ∀ x ∈ pre, x.status = 429 := fun x hx =>
          hpre x (List.mem_cons_of_mem r hx)
        show shopifyFetch (r :: (pre ++ [final])) = _
        unfold shopifyFetch
        rw [if_pos hr, ih hrest]
        rfl
  · intro rs e
    induction rs with
    | nil =>
        intro h
        simp only [shopifyFetch] at h
        cases h
        decide
    | cons r rest ih =>
        intro h
        by_cases h429 : r.status = 429
        · unfold shopifyFetch at h
          rw [if_pos h429] at h
          exact ih h
        · unfold shopifyFetch at h
          rw [if_neg h429] at h
          by_cases hok : responseOk r.status = true
          · rw [if_pos hok] at h
            cases h
          · rw [if_neg hok] at h
            cases h
            exact h429
  · intro r h
    unfold retryWaitMs
    rw [h]
    rfl
  · intro r s h
    unfold retryWaitMs
    rw [h]
    rfl
  · intro p rest hok
    unfold fetchAllCustomers
    rw [if_neg (by rw [hok]; exact Bool.false_ne_true)]

/-- Witness for the amended C7: two successive 429 responses, the first
carrying `Retry-After: 2`, the second without the header, then a 200 —
the waits are 2000 ms and the 5000 ms default, and the 200 is returned. -/
theorem shopifyFetch_retries_429_witness :
    (∀ r ∈ [ShopifyResponse.mk 429 (some 2), ShopifyResponse.mk 429 none],
      r.status = 429) ∧
    responseOk (ShopifyResponse.mk 200 none).status = true ∧
    shopifyFetch ([ShopifyResponse.mk 429 (some 2), ShopifyResponse.mk 429 none] ++
        [ShopifyResponse.mk 200 none]) =
      ([ShopifyResponse.mk 429 (some 2), ShopifyResponse.mk 429 none].map retryWaitMs,
        Except.ok (ShopifyResponse.mk 200 none)) :=
  ⟨by decide, by decide,
    shopifyFetch_retries_429.1
      [ShopifyResponse.mk 429 (some 2), ShopifyResponse.mk 429 none]
      (ShopifyResponse.mk 200 none) (by decide) (by decide)⟩

/-! ## Pagination termination and totals (C4) -/

/-- A well-formed source stays well-formed after dropping its first page
when more pages remain. -/
theorem wellFormedSource_tail (p q : FetchPage) (rest : List FetchPage)
    (h : WellFormedSource (p :: q :: rest)) : WellFormedSource (q :: rest) := by
  obtain ⟨hok, hmid, hlast⟩ := h
  refine ⟨fun x hx => hok x (List.mem_cons_of_mem p hx), ?_, ?_⟩
  · intro x hx
    apply hmid
    rw [List.dropLast_cons₂]
    exact List.mem_cons_of_mem p hx
  · intro x hx
    apply hlast
    rw [List.getLast?_cons_cons]
    exact hx

/-- C4: over every well-formed finite paginated source, the batches
`fetchAllCustomers` hands to `onBatch` are exactly the source's
non-empty pages in order and the returned total is the source's total
record count; moreover the iteration stops right after the first page
that lacks a next-page cursor or holds fewer (or more) than 250 records,
never consuming later responses. -/
theorem fetchAllCustomers_pagination :
    (∀ pages : List FetchPage, WellFormedSource pages →
      fetchAllCustomers pages =
        Except.ok ((pages.map FetchPage.customers).filter (fun b => decide (0 < b.length)),
          (pages.map fun p => p.customers.length).sum)) ∧
    (∀ (p : FetchPage) (rest : List FetchPage), p.hasNextLink = false →
      fetchAllCustomers (p :: rest) = fetchAllCustomers [p]) ∧
    (∀ (p : FetchPage) (rest : List FetchPage), p.customers.length ≠ 250 →
      fetchAllCustomers (p :: rest) = fetchAllCustomers [p]) := by
  refine ⟨?_, ?_, ?_⟩
  · intro pages
    induction pages with
    | nil =>
        intro _
        rfl
    | cons p rest ih =>
        intro hwf
        have hok : responseOk p.status = true := hwf.1 p (List.mem_cons_self p rest)
        cases rest with
        | nil =>
            have hlast : p.hasNextLink = false := by
              apply hwf.2.2
              simp [List.getLast?]
            unfold fetchAllCustomers
            rw [hlast]
            simp only [hok, if_true, Bool.false_and, Bool.false_eq_true, if_false]
            by_cases hlen : 0 < p.customers.length
            · simp [hlen]
            · simp [hlen, Nat.eq_zero_of_not_pos hlen]
        | cons q rest' =>
            have hfirst : p.customers.length = 250 ∧ p.hasNextLink = true := by
              apply hwf.2.1
              rw [List.dropLast_cons₂]
              exact List.mem_cons_self p _
            have ihrest := ih (wellFormedSource_tail p q rest' hwf)
            unfold fetchAllCustomers
            rw [ihrest, hfirst.2]
            simp only [hok, if_true, Bool.true_and, beq_iff_eq]
            rw [if_pos hfirst.1]
            simp [hfirst.1]
  · intro p rest hnext
    unfold fetchAllCustomers
    simp [hnext]
  · intro p rest hlen
    unfold fetchAllCustomers
    simp [hlen]

/-- The 250/250/40 source of the specification's scenario. -/
def scenarioPages : List FetchPage :=
  [{ status := 200, customers := List.replicate 250 sampleSyncRecord, hasNextLink := true },
   { status := 200, customers := List.replicate 250 sampleSyncRecord, hasNextLink := true },
   { status := 200, customers := List.replicate 40 sampleSyncRecord, hasNextLink := false }]

set_option maxRecDepth 100000 in
/-- Witness for C4 at the specification's scenario: pages of 250, 250
and 40 records produce exactly three `onBatch` batches of those sizes
and a reported total of 540. -/
theorem fetchAllCustomers_pagination_witness :
    WellFormedSource scenarioPages ∧
    fetchAllCustomers scenarioPages =
      Except.ok ([List.replicate 250 sampleSyncRecord,
        List.replicate 250 sampleSyncRecord,
        List.replicate 40 sampleSyncRecord], 540) :=
  ⟨by decide, by
    rw [fetchAllCustomers_pagination.1 scenarioPages (by decide)]
    rfl⟩

/-! ## Idempotence of the upsert (C9) -/

/-- The conflict update never changes the external key. -/
theorem key_applyConflictUpdate (k : Nat) (c : InsertCustomer) (now : Int) (r : Customer) :
    customerKeyMatches k (applyConflictUpdate c now r) = customerKeyMatches k r :=
  rfl

/-- A freshly inserted row matches its payload's external key. -/
theorem key_insertedRow (c : InsertCustomer) (now : Int) (i : Nat) :
    customerKeyMatches c.shopifyCustomerId (insertedRow c now i) = true := by
  simp [customerKeyMatches, insertedRow]

/-- Applying the conflict update twice with the same payload and clock is
the same as applying it once. -/
theorem applyConflictUpdate_idem (c : InsertCustomer) (now : Int) (r : Customer) :
    applyConflictUpdate c now (applyConflictUpdate c now r) = applyConflictUpdate c now r :=
  rfl

/-- Searching past a prefix with no match. -/
theorem find?_append_of_none (p : Customer → Bool) (l1 l2 : List Customer)
    (h : l1.find? p = none) : (l1 ++ l2).find? p = l2.find? p := by
  induction l1 with
  | nil => rfl
  | cons a l ih =>
      by_cases ha : p a = true
      · rw [List.find?_cons_of_pos _ ha] at h
        cases h
      · rw [List.cons_append, List.find?_cons_of_neg _ ha]
        rw [List.find?_cons_of_neg _ ha] at h
        exact ih h

/-- Filtering after substituting every match by a fixed matching row. -/
theorem filter_map_ite (p : Customer → Bool) (r' : Customer) (hp : p r' = true)
    (l : List Customer) :
    (l.map fun x => if p x then r' else x).filter p = (l.filter p).map fun _ => r' := by
  induction l with
  | nil => rfl
  | cons a l ih =>
      by_cases h : p a = true
      · simp [h, hp, ih]
      · simp [h, ih]

/-- Finding after substituting every match by a fixed matching row. -/
theorem find?_map_ite (p : Customer → Bool) (r' : Customer) (hp : p r' = true)
    (l : List Customer) (hex : (l.find? p).isSome = true) :
    (l.map fun x => if p x then r' else x).find? p = some r' := by
  induction l with
  | nil => cases hex
  | cons a l ih =>
      by_cases h : p a = true
      · simp [h, hp]
      · rw [List.find?_cons_of_neg _ h] at hex
        simp only [List.map_cons, if_neg h]
        rw [List.find?_cons_of_neg _ h]
        exact ih hex

/-- Substituting every match by a fixed row is idempotent. -/
theorem map_ite_idem (p : Customer → Bool) (r' : Customer) (l : List Customer) :
    ((l.map fun x => if p x then r' else x).map fun x => if p x then r' else x) =
      l.map fun x => if p x then r' else x := by
  induction l with
  | nil => rfl
  | cons a l ih =>
      by_cases h : p a = true
      · simp only [List.map_cons, if_pos h, ite_self, ih]
      · simp only [List.map_cons, if_neg h, ih]

/-- C9: `upsertCustomer` is idempotent — on any table whose unique key
constraint holds for the payload's external id, running the upsert a
second time with the identical input changes nothing, and after the
first run exactly one stored row carries that external id. -/
theorem upsertCustomer_idempotent (db : List Customer) (c : InsertCustomer) (now : Int)
    (hdup : (db.filter (customerKeyMatches c.shopifyCustomerId)).length ≤ 1) :
    upsertState (upsertState db c now) c now = upsertState db c now ∧
    ((upsertState db c now).filter (customerKeyMatches c.shopifyCustomerId)).length = 1 := by
  set p := customerKeyMatches c.shopifyCustomerId with hp
  match hfind : db.find? p with
  | none =>
      have hnone : ∀ x ∈ db, ¬ p x = true := List.find?_eq_none.mp hfind
      have hdb1 : upsertState db c now = db ++ [insertedRow c now db.length] := by
        unfold upsertState upsertCustomer
        rw [← hp, hfind]
      have hkey : p (insertedRow c now db.length) = true := key_insertedRow c now db.length
      constructor
      · have hfind1 : (db ++ [insertedRow c now db.length]).find? p =
            some (insertedRow c now db.length) := by
          rw [find?_append_of_none p db _ hfind, List.find?_cons_of_pos _ hkey]
        rw [hdb1]
        unfold upsertState upsertCustomer
        rw [← hp, hfind1]
        simp only
        have hself : applyConflictUpdate c now (insertedRow c now db.length) =
            insertedRow c now db.length := rfl
        rw [hself]
        apply List.map_congr_left ?_ |>.trans (List.map_id _)
        intro x hx
        rcases List.mem_append.mp hx with hx | hx
        · exact if_neg (hnone x hx)
        · rcases List.mem_singleton.mp hx with rfl
          exact if_pos hkey |>.trans rfl
      · rw [hdb1, List.filter_append]
        have h1 : db.filter p = [] := List.filter_eq_nil_iff.mpr hnone
        rw [h1]
        simp [hkey]
  | some r =>
      have hkey_r : p r = true := List.find?_some hfind
      have hr_mem : r ∈ db := List.mem_of_find?_eq_some hfind
      have hkey' : p (applyConflictUpdate c now r) = true := by
        rw [hp, key_applyConflictUpdate, ← hp]
        exact hkey_r
      have hdb1 : upsertState db c now =
          db.map fun x => if p x then applyConflictUpdate c now r else x := by
        unfold upsertState upsertCustomer
        rw [← hp, hfind]
      constructor
      · have hfind1 : (db.map fun x => if p x then applyConflictUpdate c now r else x).find? p =
            some (applyConflictUpdate c now r) :=
          find?_map_ite p _ hkey' db (by rw [hfind]; rfl)
        rw [hdb1]
        unfold upsertState upsertCustomer
        rw [← hp, hfind1]
        simp only
        rw [applyConflictUpdate_idem]
        exact map_ite_idem p _ db
      · rw [hdb1, filter_map_ite p _ hkey', List.length_map]
        have hpos : 0 < (db.filter p).length := by
          apply List.length_pos.mpr
          intro hnil
          have : r ∈ db.filter p := List.mem_filter.mpr ⟨hr_mem, hkey_r⟩
          rw [hnil] at this
          cases this
        omega

/-- Witness for C9 on the empty table. -/
theorem upsertCustomer_idempotent_witness :
    (([] : List Customer).filter
      (customerKeyMatches enrichmentClearingInsert.shopifyCustomerId)).length ≤ 1 ∧
    (upsertState (upsertState [] enrichmentClearingInsert 7) enrichmentClearingInsert 7 =
      upsertState [] enrichmentClearingInsert 7 ∧
    ((upsertState [] enrichmentClearingInsert 7).filter
      (customerKeyMatches enrichmentClearingInsert.shopifyCustomerId)).length = 1) :=
  ⟨by decide, upsertCustomer_idempotent [] enrichmentClearingInsert 7 (by decide)⟩

/-! ## Preservation of the enrichment data invariant (C8) -/

/-- A payload is safe to insert when marking it complete comes with both
gender fields present. -/
def SafeInsertPayload (c : InsertCustomer) : Prop :=
  c.enrichmentStatus = EnrichmentStatus.complete →
    c.genderInferred ≠ none ∧ c.genderConfidence ≠ none

/-- The upsert preserves the enrichment invariant whenever the payload is
safe on the insert path; the conflict path never touches enrichment
fields, so it preserves the invariant unconditionally. -/
theorem upsert_preserves_invariant (db : List Customer) (c : InsertCustomer) (now : Int)
    (hinv : EnrichmentInvariant db) (hc : SafeInsertPayload c) :
    EnrichmentInvariant (upsertState db c now) := by
  intro row hmem hst
  unfold upsertState upsertCustomer at hmem
  match hfind : db.find? (customerKeyMatches c.shopifyCustomerId) with
  | none =>
      rw [hfind] at hmem
      simp only at hmem
      rcases List.mem_append.mp hmem with h | h
      · exact hinv row h hst
      · rcases List.mem_singleton.mp h with rfl
        exact hc hst
  | some r =>
      rw [hfind] at hmem
      simp only at hmem
      rcases List.mem_map.mp hmem with ⟨x, hx, hrow⟩
      by_cases h : customerKeyMatches c.shopifyCustomerId x = true
      · rw [if_pos h] at hrow
        subst hrow
        exact hinv r (List.mem_of_find?_eq_some hfind) hst
      · rw [if_neg h] at hrow
        subst hrow
        exact hinv x hx hst

/-- The sync path's payload is safe: it only carries status complete when
the existing row was complete, and then it copies that row's (non-null,
by the invariant) gender fields. -/
theorem safe_syncInsertData (db : List Customer) (tc : TransformedCustomer)
    (hinv : EnrichmentInvariant db) :
    SafeInsertPayload (syncInsertData (db.find? (customerKeyMatches tc.shopifyCustomerId)) tc) := by
  match hfind : db.find? (customerKeyMatches tc.shopifyCustomerId) with
  | none =>
      intro h
      cases h
  | some r =>
      intro h
      exact hinv r (List.mem_of_find?_eq_some hfind) h

/-- The webhook-update path's payload is safe, for the same reason as the
sync path's. -/
theorem safe_webhookUpdateInsertData (db : List Customer) (w : WebhookCustomer)
    (hinv : EnrichmentInvariant db) :
    SafeInsertPayload (webhookUpdateInsertData (db.find? (customerKeyMatches w.id)) w) := by
  match hfind : db.find? (customerKeyMatches w.id) with
  | none =>
      intro h
      cases h
  | some r =>
      intro h
      exact hinv r (List.mem_of_find?_eq_some hfind) h

/-- Every customer-writing operation preserves the enrichment invariant. -/
theorem stepStore_preserves_invariant (db : List Customer) (now : Int) (op : StoreOp)
    (hinv : EnrichmentInvariant db) : EnrichmentInvariant (stepStore db now op) := by
  cases op with
  | syncRecord tc =>
      exact upsert_preserves_invariant db _ now hinv (safe_syncInsertData db tc hinv)
  | webhookCreate w =>
      refine upsert_preserves_invariant db _ now hinv ?_
      intro h
      cases h
  | webhookUpdate w =>
      exact upsert_preserves_invariant db _ now hinv (safe_webhookUpdateInsertData db w hinv)
  | enrichComplete rowId res =>
      intro row hmem hst
      rcases List.mem_map.mp hmem with ⟨x, hx, hrow⟩
      by_cases h : (x.id == rowId) = true
      · rw [if_pos h] at hrow
        subst hrow
        exact ⟨Option.some_ne_none _, Option.some_ne_none _⟩
      · rw [if_neg h] at hrow
        subst hrow
        exact hinv x hx hst
  | enrichFailed rowId =>
      intro row hmem hst
      rcases List.mem_map.mp hmem with ⟨x, hx, hrow⟩
      by_cases h : (x.id == rowId) = true
      · rw [if_pos h] at hrow
        subst hrow
        exact EnrichmentStatus.noConfusion hst
      · rw [if_neg h] at hrow
        subst hrow
        exact hinv x hx hst
  | resetAll =>
      intro row hmem hst
      rcases List.mem_map.mp hmem with ⟨x, hx, hrow⟩
      subst hrow
      exact EnrichmentStatus.noConfusion hst

/-- C8: for every sequence of customer-writing operations (sync upserts,
webhook upserts, enrichment success/failure writes, enrichment resets)
starting from a state satisfying the enrichment invariant, every
reachable store state satisfies it: no row is marked complete with a
null gender or null confidence. -/
theorem enrichment_invariant_reachable (db : List Customer) (ops : List (Int × StoreOp))
    (hinv : EnrichmentInvariant db) : EnrichmentInvariant (runStoreOps db ops) := by
  induction ops generalizing db with
  | nil => exact hinv
  | cons op ops ih =>
      exact ih (stepStore db op.1 op.2) (stepStore_preserves_invariant db op.1 op.2 hinv)

/-- A concrete operation sequence exercising every writer. -/
def sampleOps : List (Int × StoreOp) :=
  [(1, StoreOp.webhookCreate sampleWebhookCustomer),
   (2, StoreOp.enrichComplete 0 ⟨Gender.male, 1⟩),
   (3, StoreOp.syncRecord sampleSyncRecord),
   (4, StoreOp.webhookUpdate sampleWebhookCustomer),
   (5, StoreOp.enrichFailed 0),
   (6, StoreOp.resetAll)]

/-- Witness for C8 on the empty store and a sequence exercising every
writer. -/
theorem enrichment_invariant_reachable_witness :
    EnrichmentInvariant [] ∧ EnrichmentInvariant (runStoreOps [] sampleOps) :=
  ⟨by decide, enrichment_invariant_reachable [] sampleOps (by decide)⟩

/-! ## Single-flight sync (C1) -/

/-- The initial state satisfies the orchestrator invariant. -/
theorem orchestratorInv_init : OrchestratorInv initialOrchestratorState := by
  refine ⟨rfl, ?_, ?_, ?_⟩
  · intro r hr _
    cases hr
  · intro r hr
    cases hr
  · exact List.nodup_nil

/-- Triggering a sync preserves the orchestrator invariant. -/
theorem orchestratorInv_trigger (s : OrchestratorState) (incremental : Bool) (now : Int)
    (hinv : OrchestratorInv s) : OrchestratorInv (triggerSync s incremental now).1 := by
  obtain ⟨h1, h2, h3, h4⟩ := hinv
  unfold triggerSync
  by_cases hs : s.isSyncing = true
  · rw [if_pos hs]
    exact ⟨h1, h2, h3, h4⟩
  · rw [if_neg hs]
    have hnone : s.currentRun = none := by
      cases hcur : s.currentRun with
      | none => rfl
      | some v =>
          rw [hcur] at h1
          exact absurd h1 hs
    refine ⟨rfl, ?_, ?_, ?_⟩
    · intro r hr hst
      rcases List.mem_append.mp hr with h | h
      · have := h2 r h hst
        rw [hnone] at this
        cases this
      · rcases List.mem_singleton.mp h with rfl
        rfl
    · intro r hr
      simp only [List.length_append, List.length_cons, List.length_nil]
      rcases List.mem_append.mp hr with h | h
      · exact Nat.lt_succ_of_lt (h3 r h)
      · rcases List.mem_singleton.mp h with rfl
        exact Nat.lt_succ_self _
    · rw [List.map_append]
      refine List.Nodup.append h4 (List.nodup_singleton _) ?_
      intro a ha hb
      rcases List.mem_singleton.mp hb with rfl
      rcases List.mem_map.mp ha with ⟨r, hr, hid⟩
      exact absurd (hid ▸ h3 r hr) (lt_irrefl _)

/-- Finishing the in-flight run preserves the orchestrator invariant. -/
theorem orchestratorInv_finish (s : OrchestratorState) (o : SyncOutcome) (now : Int)
    (hinv : OrchestratorInv s) : OrchestratorInv (finishSync s o now) := by
  obtain ⟨h1, h2, h3, h4⟩ := hinv
  unfold finishSync
  cases hcur : s.currentRun with
  | none => exact ⟨h1, h2, h3, h4⟩
  | some lid =>
      refine ⟨rfl, ?_, ?_, ?_⟩
      · intro r hr hst
        exfalso
        rcases List.mem_map.mp hr with ⟨x, hx, hrx⟩
        by_cases hb : (x.id == lid) = true
        · rw [if_pos hb] at hrx
          subst hrx
          cases o with
          | ok p cr u => exact RunStatus.noConfusion hst
          | err m => exact RunStatus.noConfusion hst
        · rw [if_neg hb] at hrx
          subst hrx
          have hcr := h2 x hx hst
          rw [hcur] at hcr
          injection hcr with hcr
          rw [hcr] at hb
          exact hb (beq_self_eq_true _)
      · intro r hr
        simp only [List.length_map]
        rcases List.mem_map.mp hr with ⟨x, hx, hrx⟩
        have hid : r.id = x.id := by
          subst hrx
          by_cases hb : (x.id == lid) = true
          · rw [if_pos hb]
            cases o <;> rfl
          · rw [if_neg hb]
        rw [hid]
        exact h3 x hx
      · have hmap : (s.logs.map fun r =>
            if (r.id == lid) = true then finishLogRow o now r else r).map SyncLogRow.id =
              s.logs.map SyncLogRow.id := by
          rw [List.map_map]
          apply List.map_congr_left
          intro x _
          by_cases hb : (x.id == lid) = true
          · simp only [Function.comp_apply, if_pos hb]
            cases o <;> rfl
          · simp only [Function.comp_apply, if_neg hb]
        rw [hmap]
        exact h4

/-- A log list with pairwise-distinct ids in which every running row
carries one fixed id has at most one running row. -/
theorem filter_running_le_one (l : List SyncLogRow)
    (hnd : (l.map SyncLogRow.id).Nodup) (lid : Nat)
    (hr : ∀ r ∈ l, r.status = RunStatus.running → r.id = lid) :
    (l.filter fun r => r.status == RunStatus.running).length ≤ 1 := by
  induction l with
  | nil => exact Nat.zero_le 1
  | cons a l ih =>
      simp only [List.map_cons, List.nodup_cons] at hnd
      by_cases h : (a.status == RunStatus.running) = true
      · rw [List.filter_cons, if_pos h]
        have hnil : l.filter (fun r => r.status == RunStatus.running) = [] := by
          apply List.filter_eq_nil_iff.mpr
          intro x hx hxr
          have hxid : x.id = lid := hr x (List.mem_cons_of_mem a hx) (beq_iff_eq.mp hxr)
          have haid : a.id = lid := hr a (List.mem_cons_self a l) (beq_iff_eq.mp h)
          apply hnd.1
          rw [haid, ← hxid]
          exact List.mem_map.mpr ⟨x, hx, rfl⟩
        rw [hnil]
        exact Nat.le_refl 1
      · rw [List.filter_cons, if_neg h]
        exact ih hnd.2 fun r hr' hst => hr r (List.mem_cons_of_mem a hr') hst

/-- Under the orchestrator invariant, at most one Sync Log row is in
running state. -/
theorem runningCount_le_one (s : OrchestratorState) (hinv : OrchestratorInv s) :
    runningCount s ≤ 1 := by
  obtain ⟨h1, h2, h3, h4⟩ := hinv
  cases hcur : s.currentRun with
  | none =>
      unfold runningCount
      have hnil : s.logs.filter (fun r => r.status == RunStatus.running) = [] := by
        apply List.filter_eq_nil_iff.mpr
        intro x hx hxr
        have := h2 x hx (beq_iff_eq.mp hxr)
        rw [hcur] at this
        cases this
      rw [hnil]
      exact Nat.zero_le 1
  | some lid =>
      unfold runningCount
      apply filter_running_le_one s.logs h4 lid
      intro r hr hst
      have := h2 r hr hst
      rw [hcur] at this
      injection this with h
      exact h.symm

/-- Every state reachable by interleaved sync events satisfies the
orchestrator invariant. -/
theorem orchestratorInv_reachable (events : List SyncEvent) :
    OrchestratorInv (runSyncEvents events) := by
  have hfold : ∀ (es : List SyncEvent) (s : OrchestratorState), OrchestratorInv s →
      OrchestratorInv (es.foldl syncStep s) := by
    intro es
    induction es with
    | nil => exact fun s h => h
    | cons e es ih =>
        intro s hs
        apply ih
        cases e with
        | trigger incremental now => exact orchestratorInv_trigger s incremental now hs
        | finish o now => exact orchestratorInv_finish s o now hs
  exact hfold events initialOrchestratorState orchestratorInv_init

/-- C1: a `syncCustomers` call made while `isSyncing` is set returns the
zero-effect result `{processed: 0, created: 0, updated: 0}` and leaves
the state — in particular the Sync Log table — untouched; and along
every interleaving of sync triggers and run completions in one process,
at most one Sync Log row is ever in running state. -/
theorem syncCustomers_single_flight :
    (∀ (s : OrchestratorState) (incremental : Bool) (now : Int), s.isSyncing = true →
      triggerSync s incremental now = (s, some ⟨0, 0, 0⟩)) ∧
    (∀ events : List SyncEvent, runningCount (runSyncEvents events) ≤ 1) := by
  constructor
  · intro s incremental now h
    unfold triggerSync
    rw [if_pos h]
  · intro events
    exact runningCount_le_one _ (orchestratorInv_reachable events)

/-- A state with a sync already in flight. -/
def busyState : OrchestratorState :=
  { isSyncing := true
    logs := [{ id := 0
               syncType := "incremental"
               status := RunStatus.running
               customersProcessed := 0
               customersCreated := 0
               customersUpdated := 0
               errorMessage := none
               startedAt := 0
               completedAt := none }]
    currentRun := some 0 }

/-- Witness for C1: a trigger against a busy state is a zero-effect
no-op, and a concrete interleaving of two competing triggers, a finish
and a re-trigger never holds two running Sync Log rows. -/
theorem syncCustomers_single_flight_witness :
    busyState.isSyncing = true ∧
    triggerSync busyState true 99 = (busyState, some ⟨0, 0, 0⟩) ∧
    runningCount (runSyncEvents [SyncEvent.trigger true 1, SyncEvent.trigger false 2,
      SyncEvent.finish (SyncOutcome.ok 5 2 3) 3, SyncEvent.trigger true 4]) ≤ 1 :=
  ⟨rfl, syncCustomers_single_flight.1 busyState true 99 rfl,
    syncCustomers_single_flight.2 [SyncEvent.trigger true 1, SyncEvent.trigger false 2,
      SyncEvent.finish (SyncOutcome.ok 5 2 3) 3, SyncEvent.trigger true 4]⟩

end DataGenie
